import Mathlib

/-!
Verification of the hybrid lock primitive (src/lib.rs): a parking_lot RwLock
combined with a seqlock-style version counter supporting optimistic reads.

The embedding models the observable state of one `HybridLock<T>` instance:
the protected value, the value of the `version: AtomicU64` field, and the
occupancy of the underlying blocking read-write lock (counts of live shared
and exclusive holders). Machine arithmetic on the version counter is `Nat`
modulo `2 ^ 64`, matching the wrapping `fetch_add` on `AtomicU64`.

Optimistic operations observe four values read at distinct instants
(`is_locked_exclusive` at entry, the pre version, `is_locked_exclusive` at
the re-check, the post version); a concurrent environment may make these
arbitrary, so `try_optimistic` is embedded as a function of those four
observations. The purely sequential case instantiates all four observations
from the lock state itself.
-/

namespace HybridLockSpec

/-- The modulus of the `u64` version counter (`AtomicU64`). -/
def u64Mod : Nat := 2 ^ 64

/-- Observable state of one `HybridLock<T>` instance: the protected value
stored in the `RwLock`, the value of the `version` field, and the numbers
of live shared and exclusive holders of the underlying `parking_lot::RwLock`. -/
structure HybridLock (T : Type) where
  data : T
  version : Nat
  readers : Nat
  writers : Nat

variable {T R : Type}

/-- `HybridLock::new(t)`: a fresh `RwLock::new(t)` (unlocked) paired with
`AtomicU64::default()`, which is zero. -/
def HybridLock.new (t : T) : HybridLock T :=
  { data := t, version := 0, readers := 0, writers := 0 }

/-- `RwLock::is_locked_exclusive`: whether an exclusive holder is present. -/
def HybridLock.isLockedExclusive (l : HybridLock T) : Bool :=
  l.writers != 0

/-- `HybridLock::current_version`: an acquire fence followed by an acquire
load of `version`; it returns the counter and changes no state. -/
def HybridLock.currentVersion (l : HybridLock T) : Nat :=
  l.version

/-- Effect on the lock state of `HybridLock::read` acquiring shared access
(`self.rw_lock.read()`): one more live shared holder; the version is untouched. -/
def HybridLock.read (l : HybridLock T) : HybridLock T :=
  { l with readers := l.readers + 1 }

/-- Effect of dropping a `HybridRwLockReadGuard`: the guard has no `Drop`
impl of its own, so only the inner `RwLockReadGuard` is released; the
version is untouched. -/
def readGuardDrop (l : HybridLock T) : HybridLock T :=
  { l with readers := l.readers - 1 }

/-- Effect on the lock state of `HybridLock::write` acquiring exclusive
access (`self.rw_lock.write()`); the version is untouched. -/
def HybridLock.write (l : HybridLock T) : HybridLock T :=
  { l with writers := l.writers + 1 }

/-- The two effects performed when a `HybridRwLockWriteGuard` is destroyed:
the `fetch_add(1, Release)` on `version` in the `Drop::drop` body, and the
release of exclusive access when the inner `RwLockWriteGuard` field drops. -/
inductive WriteGuardDropAction : Type
  | bumpVersion
  | releaseExclusive
deriving DecidableEq

/-- The order in which the two effects of destroying a
`HybridRwLockWriteGuard` happen. Rust runs the explicit `Drop::drop` body
(the `fetch_add` on `version`, src/lib.rs lines 179-183) first, and only
then drops the struct fields in declaration order, so the inner
`RwLockWriteGuard` releases exclusive access strictly after the bump. -/
def writeGuardDropOrder : List WriteGuardDropAction :=
  [WriteGuardDropAction.bumpVersion, WriteGuardDropAction.releaseExclusive]

/-- State effect of each destruction action: the bump is the wrapping
`fetch_add(1)` on the `u64` counter; the release ends the exclusive hold. -/
def applyDropAction : WriteGuardDropAction → HybridLock T → HybridLock T
  | WriteGuardDropAction.bumpVersion, l => { l with version := (l.version + 1) % u64Mod }
  | WriteGuardDropAction.releaseExclusive, l => { l with writers := l.writers - 1 }

/-- Full effect of destroying a `HybridRwLockWriteGuard`: the actions of
`writeGuardDropOrder` applied in order. -/
def writeGuardDrop (l : HybridLock T) : HybridLock T :=
  writeGuardDropOrder.foldl (fun s a => applyDropAction a s) l

/-- The four values an execution of `try_optimistic` observes, each read at
a distinct instant; a concurrent environment may make them arbitrary.
`lockedAtEntry` and `lockedAtRecheck` are the two `is_locked_exclusive`
results; `preVersion` and `postVersion` are the two `current_version` loads. -/
structure OptimisticEnv where
  lockedAtEntry : Bool
  preVersion : Nat
  lockedAtRecheck : Bool
  postVersion : Nat

/-- `HybridLock::try_optimistic` (src/lib.rs lines 102-123) as a function of
the observed environment: return `none` if an exclusive holder is present at
entry; otherwise record the pre version, invoke `f` on the value currently
behind `data_ptr` (`observed`), return `none` if an exclusive holder is
present at the re-check, and otherwise return `some result` exactly when the
post version equals the pre version. The second component counts how many
times `f` was invoked. -/
def tryOptimistic (env : OptimisticEnv) (f : T → R) (observed : T) : Option R × Nat :=
  if env.lockedAtEntry then (none, 0)
  else
    let result := f observed
    if env.lockedAtRecheck then (none, 1)
    else if env.preVersion = env.postVersion then (some result, 1)
    else (none, 1)

/-- `HybridLock::fallback`: acquire a blocking read guard and invoke `f` on
`data_ptr`; under the guard the pointed-to value is the protected value. -/
def fallback (l : HybridLock T) (f : T → R) : R :=
  f l.data

/-- `HybridLock::optimistic` (src/lib.rs lines 89-98): one `try_optimistic`
attempt; on `none`, one `fallback` call. The second component counts the
total invocations of `f`. -/
def optimistic (env : OptimisticEnv) (f : T → R) (observed : T) (l : HybridLock T) : R × Nat :=
  match tryOptimistic env f observed with
  | (some r, n) => (r, n)
  | (none, n) => (fallback l f, n + 1)

/-- The observation environment of a single-threaded run: nothing changes
between the four reads, so all observations come from the lock state itself. -/
def seqEnv (l : HybridLock T) : OptimisticEnv :=
  { lockedAtEntry := l.isLockedExclusive
    preVersion := l.currentVersion
    lockedAtRecheck := l.isLockedExclusive
    postVersion := l.currentVersion }

/-- `try_optimistic` in a single-threaded execution. -/
def tryOptimisticSeq (l : HybridLock T) (f : T → R) : Option R × Nat :=
  tryOptimistic (seqEnv l) f l.data

/-- `optimistic` in a single-threaded execution. -/
def optimisticSeq (l : HybridLock T) (f : T → R) : R × Nat :=
  optimistic (seqEnv l) f l.data l

/-- The operations of the public interface together with guard
destructions, as events of a sequential trace. -/
inductive LockOp : Type
  | readAcquire
  | readRelease
  | writeAcquire
  | writeRelease
  | tryOptimisticAttempt
  | optimisticCall
  | currentVersionRead
  | dataPtrRead
deriving DecidableEq

/-- State effect of each traced operation. `try_optimistic` touches no lock
state; `optimistic` at most acquires and releases a read guard, leaving the
state unchanged net of the call; `current_version` and `data_ptr` are pure. -/
def step : LockOp → HybridLock T → HybridLock T
  | LockOp.readAcquire, l => l.read
  | LockOp.readRelease, l => readGuardDrop l
  | LockOp.writeAcquire, l => l.write
  | LockOp.writeRelease, l => writeGuardDrop l
  | LockOp.tryOptimisticAttempt, l => l
  | LockOp.optimisticCall, l => l
  | LockOp.currentVersionRead, l => l
  | LockOp.dataPtrRead, l => l

/-- Run a trace of operations from a starting state. -/
def run (trace : List LockOp) (l : HybridLock T) : HybridLock T :=
  trace.foldl (fun s op => step op s) l

/-- The number of completed write-guard releases in a trace. -/
def countWriteReleases : List LockOp → Nat
  | [] => 0
  | op :: rest => (if op = LockOp.writeRelease then 1 else 0) + countWriteReleases rest

/-- A trace of `n` complete exclusive critical sections: acquire then
release, `n` times. -/
def nWrites : Nat → List LockOp
  | 0 => []
  | n + 1 => LockOp.writeAcquire :: LockOp.writeRelease :: nWrites n

/-- Modelled from the spec: the blocking acquisition semantics of the
underlying `parking_lot::RwLock` are external to this repository (the crate
only calls `read`/`write` on it), so the interleaving semantics follows the
state machine of spec section 4.5: shared acquisition is enabled only when
no exclusive holder is present, exclusive acquisition only when no holder at
all is present, and releases end one live hold. -/
inductive LockStep : HybridLock T → HybridLock T → Prop
  | readAcquire (l : HybridLock T) : l.writers = 0 → LockStep l l.read
  | readRelease (l : HybridLock T) : 0 < l.readers → LockStep l (readGuardDrop l)
  | writeAcquire (l : HybridLock T) : l.readers = 0 → l.writers = 0 → LockStep l l.write
  | writeRelease (l : HybridLock T) : 0 < l.writers → LockStep l (writeGuardDrop l)

/-- States reachable from a freshly constructed lock by any interleaving of
guard acquisitions and releases. -/
inductive Reachable (t : T) : HybridLock T → Prop
  | init : Reachable t (HybridLock.new t)
  | step {s sNext : HybridLock T} : Reachable t s → LockStep s sNext → Reachable t sNext

/- Basic computation lemmas shared by the claim theorems. -/

theorem writeGuardDrop_version (l : HybridLock T) :
    (writeGuardDrop l).version = (l.version + 1) % u64Mod := rfl

theorem writeGuardDrop_readers (l : HybridLock T) :
    (writeGuardDrop l).readers = l.readers := rfl

theorem writeGuardDrop_writers (l : HybridLock T) :
    (writeGuardDrop l).writers = l.writers - 1 := rfl

theorem u64Mod_pos : 0 < u64Mod :=
  Nat.pos_pow_of_pos 64 (by decide)

theorem step_version_of_ne (op : LockOp) (l : HybridLock T)
    (h : op ≠ LockOp.writeRelease) : (step op l).version = l.version := by
  cases op <;> first
    | rfl
    | exact absurd rfl h

/-- Version of a state after running a trace: the starting version plus the
number of completed write-guard releases, modulo `2 ^ 64`. -/
theorem run_version (trace : List LockOp) :
    ∀ l : HybridLock T, l.version < u64Mod →
      (run trace l).version = (l.version + countWriteReleases trace) % u64Mod := by
  induction trace with
  | nil =>
    intro l hl
    simp [run, countWriteReleases, Nat.mod_eq_of_lt hl]
  | cons op rest ih =>
    intro l hl
    have hrun : run (op :: rest) l = run rest (step op l) := rfl
    by_cases hop : op = LockOp.writeRelease
    · subst hop
      have hv : (step LockOp.writeRelease l).version = (l.version + 1) % u64Mod :=
        writeGuardDrop_version l
      have hlt : (step LockOp.writeRelease l).version < u64Mod := by
        rw [hv]; exact Nat.mod_lt _ u64Mod_pos
      rw [hrun, ih _ hlt, hv, Nat.mod_add_mod, countWriteReleases]
      simp [Nat.add_assoc, Nat.add_comm, Nat.add_left_comm]
    · have hv : (step op l).version = l.version := step_version_of_ne op l hop
      have hlt : (step op l).version < u64Mod := by rw [hv]; exact hl
      rw [hrun, ih _ hlt, hv, countWriteReleases]
      simp [hop]

theorem countWriteReleases_nWrites (n : Nat) :
    countWriteReleases (nWrites n) = n := by
  induction n with
  | zero => rfl
  | succ n ih => simp [nWrites, countWriteReleases, ih, Nat.add_comm]

theorem countWriteReleases_append (t1 t2 : List LockOp) :
    countWriteReleases (t1 ++ t2) = countWriteReleases t1 + countWriteReleases t2 := by
  induction t1 with
  | nil => simp [countWriteReleases]
  | cons op rest ih => simp [countWriteReleases, ih, Nat.add_assoc]

theorem run_append (t1 t2 : List LockOp) (l : HybridLock T) :
    run (t1 ++ t2) l = run t2 (run t1 l) := by
  simp [run, List.foldl_append]

theorem one_lt_u64Mod : 1 < u64Mod := by
  norm_num [u64Mod]

/-- Claim C1: whenever the entry check of `try_optimistic` finds no
exclusive holder, the callback is invoked exactly once and the call returns
`some` of the callback result exactly when the re-check finds no exclusive
holder and the post version equals the pre version; otherwise it returns
`none`. -/
theorem C1_try_optimistic_validation (env : OptimisticEnv) (f : T → R) (observed : T)
    (h : env.lockedAtEntry = false) :
    (tryOptimistic env f observed).2 = 1 ∧
    ((tryOptimistic env f observed).1 = some (f observed) ↔
      env.lockedAtRecheck = false ∧ env.preVersion = env.postVersion) ∧
    (env.lockedAtRecheck = true ∨ env.preVersion ≠ env.postVersion →
      (tryOptimistic env f observed).1 = none) := by
  rcases env with ⟨e1, pre, e2, post⟩
  simp only [OptimisticEnv.lockedAtEntry] at h
  subst h
  cases e2 <;> by_cases hpq : pre = post <;>
    simp_all [tryOptimistic]

/-- Witness for C1 at a concrete passing environment. -/
theorem C1_try_optimistic_validation_witness :
    (tryOptimistic ⟨false, 0, false, 0⟩ (fun n : Nat => n + 1) 5).2 = 1 ∧
    ((tryOptimistic ⟨false, 0, false, 0⟩ (fun n : Nat => n + 1) 5).1 = some 6 ↔
      (false = false ∧ (0 : Nat) = 0)) ∧
    (false = true ∨ (0 : Nat) ≠ 0 →
      (tryOptimistic ⟨false, 0, false, 0⟩ (fun n : Nat => n + 1) 5).1 = none) :=
  C1_try_optimistic_validation ⟨false, 0, false, 0⟩ (fun n : Nat => n + 1) 5 rfl

/-- Claim C5: if an exclusive holder is present at the entry check,
`try_optimistic` returns `none` immediately and the callback is never
invoked (invocation count zero). -/
theorem C5_exclusive_at_entry_returns_none (env : OptimisticEnv) (f : T → R) (observed : T)
    (h : env.lockedAtEntry = true) :
    tryOptimistic env f observed = (none, 0) := by
  simp [tryOptimistic, h]

/-- Witness for C5 at a concrete environment with an exclusive holder. -/
theorem C5_exclusive_at_entry_returns_none_witness :
    (⟨true, 3, false, 4⟩ : OptimisticEnv).lockedAtEntry = true ∧
    tryOptimistic ⟨true, 3, false, 4⟩ (fun n : Nat => n) 9 = (none, 0) :=
  ⟨rfl, C5_exclusive_at_entry_returns_none ⟨true, 3, false, 4⟩ (fun n : Nat => n) 9 rfl⟩

/-- Claim C3: `optimistic` makes exactly one `try_optimistic` attempt; if
that attempt returns `none` it makes exactly one fallback call under a read
guard (one extra invocation of the callback, on the protected value) and
returns that result; if the attempt returns `some r` it returns `r` with no
fallback; in every case it returns a result. -/
theorem C3_optimistic_single_fallback (env : OptimisticEnv) (f : T → R) (observed : T)
    (l : HybridLock T) :
    ((tryOptimistic env f observed).1 = none →
      optimistic env f observed l = (fallback l f, (tryOptimistic env f observed).2 + 1)) ∧
    (∀ r : R, (tryOptimistic env f observed).1 = some r →
      optimistic env f observed l = (r, (tryOptimistic env f observed).2)) ∧
    (optimistic env f observed l).1 =
      (match (tryOptimistic env f observed).1 with
        | some r => r
        | none => fallback l f) := by
  refine ⟨?_, ?_, ?_⟩ <;> rcases hEq : tryOptimistic env f observed with ⟨o, n⟩
  · intro hnone
    cases o with
    | some r => exact absurd hnone (by simp)
    | none => simp [optimistic, hEq]
  · intro r hsome
    cases o with
    | some r0 =>
      obtain rfl : r0 = r := by simpa using hsome
      simp [optimistic, hEq]
    | none => exact absurd hsome (by simp)
  · cases o <;> simp [optimistic, hEq]

/-- Witness for C3 at a concrete failing attempt (version changed). -/
theorem C3_optimistic_single_fallback_witness :
    (tryOptimistic ⟨false, 0, false, 1⟩ (fun n : Nat => n * 2) 3).1 = none ∧
    optimistic ⟨false, 0, false, 1⟩ (fun n : Nat => n * 2) 3 (HybridLock.new 7) = (14, 2) :=
  ⟨rfl,
    (C3_optimistic_single_fallback ⟨false, 0, false, 1⟩ (fun n : Nat => n * 2) 3
      (HybridLock.new 7)).1 rfl⟩

/-- Claim C9: every `optimistic` call invokes the callback at least once and
at most twice; when the attempt invoked the callback but validation failed
(exclusive holder at the re-check, or version changed), the first result is
discarded and the callback runs a second time on the protected value under
the fallback read guard. -/
theorem C9_callback_invocation_count (env : OptimisticEnv) (f : T → R) (observed : T)
    (l : HybridLock T) :
    1 ≤ (optimistic env f observed l).2 ∧
    (optimistic env f observed l).2 ≤ 2 ∧
    (env.lockedAtEntry = false →
      env.lockedAtRecheck = true ∨ env.preVersion ≠ env.postVersion →
      optimistic env f observed l = (fallback l f, 2)) := by
  rcases env with ⟨e1, pre, e2, post⟩
  cases e1 <;> cases e2 <;> by_cases hpq : pre = post <;>
    simp_all [optimistic, tryOptimistic, fallback]

/-- Witness for C9 at a concrete environment failing the re-check. -/
theorem C9_callback_invocation_count_witness :
    1 ≤ (optimistic ⟨false, 9, true, 9⟩ (fun n : Nat => n + 100) 0 (HybridLock.new 5)).2 ∧
    (optimistic ⟨false, 9, true, 9⟩ (fun n : Nat => n + 100) 0 (HybridLock.new 5)).2 ≤ 2 ∧
    optimistic ⟨false, 9, true, 9⟩ (fun n : Nat => n + 100) 0 (HybridLock.new 5) = (105, 2) := by
  have h := C9_callback_invocation_count ⟨false, 9, true, 9⟩ (fun n : Nat => n + 100) 0
    (HybridLock.new 5)
  exact ⟨h.1, h.2.1, h.2.2 rfl (Or.inl rfl)⟩

/-- Claim C6: a freshly constructed lock starts at version zero:
`current_version` on `HybridLock::new(t)` returns `0` (the value of
`AtomicU64::default()`). -/
theorem C6_new_starts_at_version_zero (t : T) :
    (HybridLock.new t).currentVersion = 0 := rfl

/-- Claim C7: in a single-threaded execution with no exclusive holder, the
fast path succeeds: `try_optimistic` validates (nothing changes between the
four observations) and `optimistic` returns the callback result on the
protected value with exactly one invocation and no fallback. -/
theorem C7_fast_path_no_writer (l : HybridLock T) (f : T → R) (h : l.writers = 0) :
    tryOptimisticSeq l f = (some (f l.data), 1) ∧
    optimisticSeq l f = (f l.data, 1) := by
  have hex : l.isLockedExclusive = false := by
    simp [HybridLock.isLockedExclusive, h]
  constructor
  · simp [tryOptimisticSeq, tryOptimistic, seqEnv, hex]
  · simp [optimisticSeq, optimistic, tryOptimisticSeq, tryOptimistic, seqEnv, hex]

/-- Witness for C7: spec scenario 1, value starting at `1` and a callback
reading through the pointer; `optimistic` returns `1` via the fast path. -/
theorem C7_fast_path_no_writer_witness :
    (HybridLock.new (1 : Nat)).writers = 0 ∧
    (tryOptimisticSeq (HybridLock.new (1 : Nat)) (fun n => n) = (some 1, 1) ∧
      optimisticSeq (HybridLock.new (1 : Nat)) (fun n => n) = (1, 1)) :=
  ⟨rfl, C7_fast_path_no_writer (HybridLock.new 1) (fun n => n) rfl⟩

/-- Claim C2 is refuted: destroying a write guard does not release exclusive
access before touching the version. The `Drop::drop` body (the version
`fetch_add`) runs before the `guard` field is dropped, so the drop order is
bump-then-release, and after the first destruction action on a concretely
held lock the version is already incremented while the exclusive hold is
still live. -/
theorem C2_drop_order_counterexample :
    writeGuardDropOrder ≠
      [WriteGuardDropAction.releaseExclusive, WriteGuardDropAction.bumpVersion] ∧
    (applyDropAction WriteGuardDropAction.bumpVersion
      ({ data := 5, version := 0, readers := 0, writers := 1 } : HybridLock Nat)).writers = 1 ∧
    (applyDropAction WriteGuardDropAction.bumpVersion
      ({ data := 5, version := 0, readers := 0, writers := 1 } : HybridLock Nat)).version = 1 :=
  ⟨by decide, rfl, by decide⟩

/-- Claim C2 as amended: destruction of a write guard first increments the
version by one (wrapping, release-ordered `fetch_add` in the `Drop::drop`
body) while exclusive access is still held, and only afterwards releases
exclusive access when the inner guard field drops; the whole drop leaves the
version at its old value plus one modulo `2 ^ 64` and one fewer exclusive
holder. -/
theorem C2_drop_bumps_version_then_releases (l : HybridLock T) :
    writeGuardDropOrder =
      [WriteGuardDropAction.bumpVersion, WriteGuardDropAction.releaseExclusive] ∧
    (applyDropAction WriteGuardDropAction.bumpVersion l).writers = l.writers ∧
    (applyDropAction WriteGuardDropAction.bumpVersion l).version = (l.version + 1) % u64Mod ∧
    (writeGuardDrop l).writers = l.writers - 1 ∧
    (writeGuardDrop l).version = (l.version + 1) % u64Mod :=
  ⟨rfl, rfl, rfl, rfl, rfl⟩

/-- The wrap-around trace: `2 ^ 64` complete exclusive critical sections,
written as `2 ^ 64 - 1` acquire/release pairs followed by one more pair. -/
def wrapTrace : List LockOp :=
  nWrites (u64Mod - 1) ++ [LockOp.writeAcquire, LockOp.writeRelease]

/-- Claim C4 is refuted on the wrap-around trace: after `2 ^ 64` completed
write-guard releases from a fresh lock the version is `0`, not `2 ^ 64`, so
the version does not equal the number of completed releases; and along that
same execution the version decreases (it is `2 ^ 64 - 1` after the first
`2 ^ 64 - 1` releases and `0` at the end), so it is not non-decreasing. -/
theorem C4_version_equals_count_counterexample :
    countWriteReleases wrapTrace = u64Mod ∧
    (run wrapTrace (HybridLock.new (0 : Nat))).version = 0 ∧
    (run wrapTrace (HybridLock.new (0 : Nat))).version ≠ countWriteReleases wrapTrace ∧
    (run wrapTrace (HybridLock.new (0 : Nat))).version <
      (run (nWrites (u64Mod - 1)) (HybridLock.new (0 : Nat))).version := by
  have hM : 1 < u64Mod := one_lt_u64Mod
  have hcount : countWriteReleases wrapTrace = u64Mod := by
    have hpair : countWriteReleases [LockOp.writeAcquire, LockOp.writeRelease] = 1 := by decide
    rw [wrapTrace, countWriteReleases_append, countWriteReleases_nWrites, hpair]
    omega
  have hfull : (run wrapTrace (HybridLock.new (0 : Nat))).version = 0 := by
    rw [run_version wrapTrace (HybridLock.new (0 : Nat)) u64Mod_pos, hcount]
    simp [HybridLock.new]
  have hpre : (run (nWrites (u64Mod - 1)) (HybridLock.new (0 : Nat))).version = u64Mod - 1 := by
    rw [run_version (nWrites (u64Mod - 1)) (HybridLock.new (0 : Nat)) u64Mod_pos,
      countWriteReleases_nWrites]
    simp [HybridLock.new]
  refine ⟨hcount, hfull, ?_, ?_⟩
  · rw [hfull, hcount]
    omega
  · rw [hfull, hpre]
    omega

/-- Claim C4 as amended: the version is changed only by the destruction of a
write guard, which performs a wrapping increment by one; read-guard
creation and destruction, exclusive acquisition, `try_optimistic`,
`optimistic`, `current_version` and `data_ptr` leave it unchanged; hence
after any trace from a fresh lock the version equals the number of
completed write-guard releases modulo `2 ^ 64`. -/
theorem C4_version_changes_only_on_write_release (trace : List LockOp) (t : T)
    (op : LockOp) (l : HybridLock T) :
    (run trace (HybridLock.new t)).version = countWriteReleases trace % u64Mod ∧
    (op ≠ LockOp.writeRelease → (step op l).version = l.version) ∧
    (step LockOp.writeRelease l).version = (l.version + 1) % u64Mod := by
  refine ⟨?_, step_version_of_ne op l, writeGuardDrop_version l⟩
  have h := run_version trace (HybridLock.new t) u64Mod_pos
  simpa [HybridLock.new] using h

/-- Witness for C4 as amended, on a one-write trace and a read acquisition. -/
theorem C4_version_changes_only_on_write_release_witness :
    (run (nWrites 1) (HybridLock.new (0 : Nat))).version =
      countWriteReleases (nWrites 1) % u64Mod ∧
    (step LockOp.readAcquire (HybridLock.new (0 : Nat))).version =
      (HybridLock.new (0 : Nat)).version ∧
    (step LockOp.writeRelease (HybridLock.new (0 : Nat))).version =
      ((HybridLock.new (0 : Nat)).version + 1) % u64Mod := by
  have h := C4_version_changes_only_on_write_release (nWrites 1) (0 : Nat)
    LockOp.readAcquire (HybridLock.new (0 : Nat))
  exact ⟨h.1, h.2.1 (by decide), h.2.2⟩

/-- Claim C10: version arithmetic is modulo `2 ^ 64`: after exactly `2 ^ 64`
completed write-guard releases from a fresh lock the version is back to `0`,
and two equal version reads around a trace imply the number of write-guard
releases in between is a multiple of `2 ^ 64`, not necessarily zero. -/
theorem C10_version_arithmetic_is_modular (t : Nat) :
    (run (nWrites u64Mod) (HybridLock.new t)).version = 0 ∧
    (∀ (l : HybridLock Nat) (trace : List LockOp), l.version < u64Mod →
      ((run trace l).version = l.version ↔ countWriteReleases trace % u64Mod = 0)) := by
  constructor
  · rw [run_version (nWrites u64Mod) (HybridLock.new t) u64Mod_pos,
      countWriteReleases_nWrites]
    simp [HybridLock.new]
  · intro l trace hl
    rw [run_version trace l hl]
    constructor
    · intro h
      have h2 : l.version + countWriteReleases trace ≡ l.version + 0 [MOD u64Mod] := by
        show (l.version + countWriteReleases trace) % u64Mod = (l.version + 0) % u64Mod
        rw [h, Nat.add_zero, Nat.mod_eq_of_lt hl]
      have h3 : countWriteReleases trace ≡ 0 [MOD u64Mod] :=
        Nat.ModEq.add_left_cancel' l.version h2
      simpa [Nat.ModEq] using h3
    · intro h
      rw [Nat.add_mod, h, Nat.add_zero, Nat.mod_eq_of_lt hl, Nat.mod_eq_of_lt hl]

/-- Witness for C10 on a fresh lock and the empty trace. -/
theorem C10_version_arithmetic_is_modular_witness :
    (HybridLock.new (0 : Nat)).version < u64Mod ∧
    ((run [] (HybridLock.new (0 : Nat))).version = (HybridLock.new (0 : Nat)).version ↔
      countWriteReleases [] % u64Mod = 0) :=
  ⟨u64Mod_pos,
    (C10_version_arithmetic_is_modular 0).2 (HybridLock.new 0) [] u64Mod_pos⟩

/-- Claim C8: in every interleaving of guard acquisitions and releases
admitted by the blocking semantics of the underlying lock, every reachable
state has at most one live write guard, and whenever a write guard is live
no read guard of the same instance is live. -/
theorem C8_mutual_exclusion (t : T) (s : HybridLock T) (h : Reachable t s) :
    s.writers ≤ 1 ∧ (0 < s.writers → s.readers = 0) := by
  induction h with
  | init =>
    exact ⟨Nat.zero_le 1, fun hpos => absurd hpos (Nat.lt_irrefl 0)⟩
  | @step s sNext rs ls ih =>
    obtain ⟨ih1, ih2⟩ := ih
    cases ls with
    | readAcquire hw =>
      show s.writers ≤ 1 ∧ (0 < s.writers → s.readers + 1 = 0)
      omega
    | readRelease hr =>
      show s.writers ≤ 1 ∧ (0 < s.writers → s.readers - 1 = 0)
      rcases Nat.eq_zero_or_pos s.writers with h0 | hpos
      · omega
      · have := ih2 hpos
        omega
    | writeAcquire hr hw =>
      show s.writers + 1 ≤ 1 ∧ (0 < s.writers + 1 → s.readers = 0)
      omega
    | writeRelease hw =>
      show s.writers - 1 ≤ 1 ∧ (0 < s.writers - 1 → s.readers = 0)
      omega

/-- Witness for C8 at a concrete reachable state with two live readers. -/
theorem C8_mutual_exclusion_witness :
    Reachable (0 : Nat) { data := 0, version := 0, readers := 2, writers := 0 } ∧
    (({ data := 0, version := 0, readers := 2, writers := 0 } : HybridLock Nat).writers ≤ 1 ∧
      (0 < ({ data := 0, version := 0, readers := 2, writers := 0 } : HybridLock Nat).writers →
        ({ data := 0, version := 0, readers := 2, writers := 0 } : HybridLock Nat).readers = 0)) := by
  have h1 : Reachable (0 : Nat) (HybridLock.new 0) := Reachable.init
  have h2 : Reachable (0 : Nat) ((HybridLock.new 0).read) :=
    Reachable.step h1 (LockStep.readAcquire _ rfl)
  have h3 : Reachable (0 : Nat) (((HybridLock.new 0).read).read) :=
    Reachable.step h2 (LockStep.readAcquire _ rfl)
  have hr : Reachable (0 : Nat)
      ({ data := 0, version := 0, readers := 2, writers := 0 } : HybridLock Nat) := h3
  exact ⟨hr, C8_mutual_exclusion 0 _ hr⟩

end HybridLockSpec
